import Mathlib

/-
Verification development for the release helper script (`release.py`).

The script drives a semantic-version release: it classifies the current git
branch, resolves the next version from the last released version (or from an
in-flight release branch) and a release-type intent, updates the manifest,
commits, conditionally merges to master, tags, and pushes.

The embedding below is shallow: the pure decision logic (version resolution,
branch classification, tag filtering) is translated directly; the orchestrator
`main` becomes a pure function from the run's external inputs (current branch,
workarea state, tag listing, operator answers, manifest contents) to a result
and the ordered list of side-effecting git/manifest operations it performs.
The semantic-version value type itself is an external library; it is modelled
from the contract the specification gives for it (major/minor/patch fields,
optional pre-release ordinal, lexicographic total order with a final release
outranking any pre-release of the same triple, canonical `M.m.pbN` strings).
-/

/-- Model of the external semantic-version value type: fields `major`, `minor`,
`patch` and an optional pre-release ("beta") ordinal; absence of the ordinal
means a final release. -/
structure Version where
  major : Nat
  minor : Nat
  patch : Nat
  preRelease : Option Nat
deriving DecidableEq

/-- Ordering of the pre-release slot: a final release (no ordinal) outranks any
pre-release ordinal; two ordinals compare numerically. -/
def pre_le : Option Nat → Option Nat → Bool
  | none, none => true
  | none, some _ => false
  | some _, none => true
  | some x, some y => decide (x ≤ y)

/-- Total order on versions: compare major, then minor, then patch, then the
pre-release slot (`pre_le`). -/
def Version.le (a b : Version) : Bool :=
  decide (a.major < b.major) ||
    (decide (a.major = b.major) &&
      (decide (a.minor < b.minor) ||
        (decide (a.minor = b.minor) &&
          (decide (a.patch < b.patch) ||
            (decide (a.patch = b.patch) && pre_le a.preRelease b.preRelease)))))

/-- The version order as a Prop-valued relation (used for sorting). -/
def vle (a b : Version) : Prop := Version.le a b = true

instance : DecidableRel vle := fun a b => instDecidableEqBool (Version.le a b) true

/-- The release intents offered by the operator menu in `get_release_type`. -/
inductive ReleaseType where
  | MAJOR
  | MINOR
  | PATCH
  | BETA
deriving DecidableEq

/-- Model of the external accessor `version.beta` as used by the script: the
pre-release ordinal of the version, `0` when the version has none (so that a
bump "starts at 1 if the source had none"). -/
def Version.beta (v : Version) : Nat := v.preRelease.getD 0

/-- `determine_next_version` (release.py lines 96-106): bump the version
according to the release type.  The source formats the bumped components into
a canonical string and reparses it; by the round-trip contract of the version
type this equals constructing the record directly. -/
def determine_next_version (version : Version) (release_type : ReleaseType) : Version :=
  match release_type with
  | ReleaseType.MAJOR =>
    { major := version.major + 1, minor := 0, patch := 0, preRelease := none }
  | ReleaseType.MINOR =>
    { major := version.major, minor := version.minor + 1, patch := 0, preRelease := none }
  | ReleaseType.PATCH =>
    { major := version.major, minor := version.minor, patch := version.patch + 1,
      preRelease := none }
  | ReleaseType.BETA =>
    { major := version.major, minor := version.minor, patch := version.patch,
      preRelease := some (version.beta + 1) }

/-- Split a character list at every occurrence of `c`; models Python
`str.split` with a one-character separator (the script only splits on
`"."`, `"b"`, `"/"` and `"\n"`). -/
def splitOnChar (c : Char) : List Char → List (List Char)
  | [] => [[]]
  | x :: xs =>
    if x = c then [] :: splitOnChar c xs
    else
      match splitOnChar c xs with
      | [] => [[x]]
      | y :: ys => (x :: y) :: ys

/-- A decimal digit's value, `none` for any other character. -/
def decDigit? (c : Char) : Option Nat :=
  if 48 ≤ c.toNat ∧ c.toNat ≤ 57 then some (c.toNat - 48) else none

/-- Parse a non-empty all-digit character list as a natural number. -/
def parseNat? (cs : List Char) : Option Nat :=
  match cs with
  | [] => none
  | _ =>
    cs.foldl
      (fun acc c =>
        match acc, decDigit? c with
        | some a, some d => some (a * 10 + d)
        | _, _ => none)
      (some 0)

/-- Parse the canonical version form `MAJOR.MINOR.PATCH` or
`MAJOR.MINOR.PATCHbN`; models the external parser's validity contract. -/
def parseVersionChars (cs : List Char) : Option Version :=
  match splitOnChar ('.') cs with
  | [a, b, c] =>
    match parseNat? a, parseNat? b with
    | some major, some minor =>
      match splitOnChar ('b') c with
      | [p] =>
        match parseNat? p with
        | some patch => some { major := major, minor := minor, patch := patch, preRelease := none }
        | none => none
      | [p, n] =>
        match parseNat? p, parseNat? n with
        | some patch, some pre =>
          some { major := major, minor := minor, patch := patch, preRelease := some pre }
        | _, _ => none
      | _ => none
    | _, _ => none
  | _ => none

/-- Parse a string as a version. -/
def parseVersion (s : String) : Option Version := parseVersionChars s.data

/-- Decimal digits of `n` (most significant first), driven by a fuel argument
so that the definition is structurally recursive; `fuel = n + 1` is always
enough since `n / 10` shrinks at every step. -/
def natDigits : Nat → Nat → List Char
  | 0, _ => []
  | fuel + 1, n =>
    if n = 0 then [] else natDigits fuel (n / 10) ++ [Char.ofNat (48 + n % 10)]

/-- Decimal rendering of a natural number; models Python `str(int)`. -/
def natToString (n : Nat) : String :=
  if n = 0 then ("0") else String.mk (natDigits (n + 1) n)

/-- Canonical string of a version (`M.m.p` or `M.m.pbN`); models `str(version)`. -/
def versionString (v : Version) : String :=
  natToString v.major ++ (".") ++ natToString v.minor ++ (".") ++ natToString v.patch ++
    (match v.preRelease with
     | none => ("")
     | some n => ("b") ++ natToString n)

/-- `Branch` (release.py lines 21-31): wraps the branch name string. -/
structure Branch where
  name : String
deriving DecidableEq

/-- Code-point prefix test; models Python `str.startswith`. -/
def strStartsWith (s p : String) : Bool := decide (s.data.take p.data.length = p.data)

/-- `Branch.is_dev`: the name equals `"dev"`. -/
def Branch.is_dev (b : Branch) : Bool := decide (b.name = ("dev"))

/-- `Branch.is_release`: the name starts with `"release/"`. -/
def Branch.is_release (b : Branch) : Bool := strStartsWith b.name ("release/")

/-- The fixed trunk branch name (release.py line 13). -/
def MASTER : String := "master"

/-- The ways a run of the script can stop without completing: `exit(1)`
(dirty workarea or a declined confirmation), an `UnboundLocalError` from a
variable referenced before assignment, the `IndexError` from `versions[-1]`
on an empty list, and component access on an invalid version value. -/
inductive RunError where
  | exitFailure
  | unboundLocal (name : String)
  | indexError
  | invalidVersionAccess
deriving DecidableEq

deriving instance DecidableEq for Except

/-- The version recorded by one line of `git tag -l v*` output: strip the
leading character (`version_tag[1:]`) and parse; `none` when invalid. -/
def tagVersion (t : String) : Option Version := parseVersionChars (t.data.drop 1)

/-- `get_versions` (release.py lines 109-119): keep the valid versions of the
tag lines, in sorted order.  `tag_lines` is the decoded output of
`git tag -l v*` after splitting on newlines. -/
def get_versions (tag_lines : List String) : List Version :=
  List.insertionSort vle (tag_lines.filterMap tagVersion)

/-- `get_last_released_version` (release.py lines 148-151): `versions[-1]`,
which raises `IndexError` when the list is empty. -/
def get_last_released_version (tag_lines : List String) : Except RunError Version :=
  match (get_versions tag_lines).getLast? with
  | some v => Except.ok v
  | none => Except.error RunError.indexError

/-- The observable side-effecting operations `main` can issue, in order:
git mutations, the manifest overwrite, and the two operator prompts
(`AskConfirm` is the release-confirmation `input`, `AskPush` the
"Push to origin?" `input`). -/
inductive Event where
  | FetchTags
  | Checkout (name : String)
  | AddAll
  | Commit (message : String)
  | Pull
  | Merge (branch : String) (message : String)
  | CreateTag (name : String)
  | Push (name : String)
  | WriteManifest (version : String)
  | AskConfirm
  | AskPush
deriving DecidableEq

/-- The external inputs of one run: the current branch name, whether
`git status` is clean, the tag listing lines, the release type the operator
would pick in the menu, the version the manifest records, and the operator's
answers to the two confirmation prompts. -/
structure Inputs where
  currentBranch : String
  workareaClean : Bool
  tags : List String
  releaseTypeChoice : ReleaseType
  manifestVersion : Version
  confirmAnswer : String
  pushAnswer : String
deriving DecidableEq

/-- `release_branch_name = f"release/{next_version}"`. -/
def releaseBranchNameOf (v : Version) : String := ("release/") ++ versionString v

/-- `tag_name = f"v{next_version}"`. -/
def tagNameOf (v : Version) : String := ("v") ++ versionString v

/-- Prefix already-emitted events onto the events of the rest of the run. -/
def prependEvents (pre : List Event) (p : Except RunError Unit × List Event) :
    Except RunError Unit × List Event := (p.1, pre ++ p.2)

/-- Models the comparison `Git.get_current_branch() == MASTER` (release.py
line 213): `get_current_branch` returns a `Branch` instance and `Branch`
defines no `__eq__`, so Python falls back to identity comparison between a
`Branch` object and a `str`, which is always `False`. -/
def branch_eq_str (_ : Branch) (_ : String) : Bool := false

/-- Lines 186-221 of release.py: the common tail executed after the two
branch-classification blocks.  The three `match`es model the f-string
references to the locals `last_released_version` (line 186), `release_type`
and `next_version` (line 187), each raising `UnboundLocalError` when the
earlier blocks never assigned it.  Then: the confirmation gate, checkout of
the release branch when not already on it, manifest overwrite plus
`git add`/`git commit` (with the literal, un-interpolated message of line
200), the merge-to-master block skipped for `BETA`, tag creation, the push
gate, the dead master-push conditional, the release-branch and tag pushes,
and the restore checkout of the starting branch. -/
def commonTail (i : Inputs) (branch : Branch) (lrv : Option Version)
    (rt : Option ReleaseType) (nv : Option Version) :
    Except RunError Unit × List Event :=
  match lrv with
  | none => (Except.error (RunError.unboundLocal ("last_released_version")), [])
  | some _ =>
    match rt with
    | none => (Except.error (RunError.unboundLocal ("release_type")), [])
    | some release_type =>
      match nv with
      | none => (Except.error (RunError.unboundLocal ("next_version")), [])
      | some next_version =>
        prependEvents [Event.AskConfirm]
          (if i.confirmAnswer ≠ ("y") then (Except.error RunError.exitFailure, [])
           else
             let release_branch_name := releaseBranchNameOf next_version
             let tag_name := tagNameOf next_version
             let tr1 :=
               if branch.name ≠ release_branch_name then [Event.Checkout release_branch_name]
               else []
             let tr2 := [Event.WriteManifest (versionString next_version), Event.AddAll,
                         Event.Commit ("Update version to {next_version}")]
             let tr3 :=
               if release_type ≠ ReleaseType.BETA then
                 [Event.Checkout MASTER, Event.Pull,
                  Event.Merge release_branch_name (("Release v") ++ versionString next_version)]
               else []
             let tr4 := [Event.CreateTag tag_name, Event.AskPush]
             if i.pushAnswer ≠ ("y") then (Except.error RunError.exitFailure, tr1 ++ tr2 ++ tr3 ++ tr4)
             else
               let tr5 :=
                 if branch_eq_str
                     { name := if release_type ≠ ReleaseType.BETA then MASTER
                               else release_branch_name }
                     MASTER then [Event.Push MASTER]
                 else []
               let tr6 := [Event.Push release_branch_name, Event.Push tag_name,
                           Event.Checkout branch.name]
               (Except.ok (), tr1 ++ tr2 ++ tr3 ++ tr4 ++ tr5 ++ tr6))

/-- Lines 170-183 of release.py: the release-branch block.  Reads the manifest
version, substitutes the branch-embedded version when the manifest records the
sentinel `0.0.0` (an invalid embedded version is kept as an unvalidated value,
`none`, matching the external parser's deferred validation), then evaluates
`determine_next_version(current_version, release_type)` — whose argument
`release_type` was never assigned on this path, raising `UnboundLocalError`
exactly as Python does.  The remainder of the block (the duplicated
confirmation gate of lines 178-180) is kept for fidelity although it is
unreachable. -/
def relBlock (i : Inputs) (branch : Branch) (lrv : Option Version)
    (rt : Option ReleaseType) (nv : Option Version) :
    Except RunError Unit × List Event :=
  if branch.is_release then
    let current_version0 := i.manifestVersion
    let current_version : Option Version :=
      if current_version0 = { major := 0, minor := 0, patch := 0, preRelease := none } then
        parseVersionChars ((splitOnChar ('/') branch.name.data).getD 1 [])
      else some current_version0
    match rt with
    | none => (Except.error (RunError.unboundLocal ("release_type")), [])
    | some release_type =>
      match current_version with
      | none => (Except.error RunError.invalidVersionAccess, [])
      | some cv =>
        let nv2 := determine_next_version cv release_type
        match lrv with
        | none => (Except.error (RunError.unboundLocal ("last_released_version")), [])
        | some _ =>
          prependEvents [Event.AskConfirm]
            (if i.confirmAnswer ≠ ("y") then (Except.error RunError.exitFailure, [])
             else commonTail i branch lrv rt (some nv2))
  else commonTail i branch lrv rt nv

/-- Lines 163-168 of release.py: the development-branch block.  Computes the
last released version (which raises `IndexError` when no valid tag exists),
asks the operator for the release type, and resolves the next version; the
three locals are then in scope for the rest of the run. -/
def devBlock (i : Inputs) (branch : Branch) : Except RunError Unit × List Event :=
  if branch.is_dev then
    match get_last_released_version i.tags with
    | Except.error e => (Except.error e, [])
    | Except.ok lrv =>
      let release_type := i.releaseTypeChoice
      let next_version := determine_next_version lrv release_type
      relBlock i branch (some lrv) (some release_type) (some next_version)
  else relBlock i branch none none none

/-- `main` (release.py lines 154-221): read the current branch, stop with
`exit(1)` when the workarea is dirty, fetch tags, then run the two
classification blocks and the common tail.  (Named `main'` because Lean
reserves `main` for executable entry points.) -/
def main' (i : Inputs) : Except RunError Unit × List Event :=
  let branch : Branch := { name := i.currentBranch }
  if i.workareaClean = false then (Except.error RunError.exitFailure, [])
  else prependEvents [Event.FetchTags] (devBlock i branch)

/-! ### The version order is a total preorder -/

theorem Version.le_iff (a b : Version) :
    Version.le a b = true ↔
      (a.major < b.major ∨
        (a.major = b.major ∧
          (a.minor < b.minor ∨
            (a.minor = b.minor ∧
              (a.patch < b.patch ∨
                (a.patch = b.patch ∧ pre_le a.preRelease b.preRelease = true)))))) := by
  simp [Version.le, Bool.or_eq_true, Bool.and_eq_true, decide_eq_true_eq]

theorem pre_le_refl (x : Option Nat) : pre_le x x = true := by
  cases x <;> simp [pre_le]

theorem pre_le_total (x y : Option Nat) : pre_le x y = true ∨ pre_le y x = true := by
  cases x <;> cases y <;> simp [pre_le] <;> omega

theorem pre_le_trans {x y z : Option Nat} (h1 : pre_le x y = true) (h2 : pre_le y z = true) :
    pre_le x z = true := by
  cases x <;> cases y <;> cases z <;> simp [pre_le] at * <;> omega

/-- One level of a lexicographic chain: transitivity step. -/
theorem lex_step {x y z : Nat} {P Q R : Prop} (h1 : x < y ∨ (x = y ∧ P))
    (h2 : y < z ∨ (y = z ∧ Q)) (hPQ : P → Q → R) : x < z ∨ (x = z ∧ R) := by
  rcases h1 with h1 | ⟨e1, p⟩ <;> rcases h2 with h2 | ⟨e2, q⟩
  · exact Or.inl (lt_trans h1 h2)
  · exact Or.inl (e2 ▸ h1)
  · exact Or.inl (e1 ▸ h2)
  · exact Or.inr ⟨e1.trans e2, hPQ p q⟩

/-- One level of a lexicographic chain: totality step. -/
theorem lex_total {x y : Nat} {P Q : Prop} (h : P ∨ Q) :
    (x < y ∨ (x = y ∧ P)) ∨ (y < x ∨ (y = x ∧ Q)) := by
  rcases Nat.lt_trichotomy x y with hl | he | hg
  · exact Or.inl (Or.inl hl)
  · rcases h with p | q
    · exact Or.inl (Or.inr ⟨he, p⟩)
    · exact Or.inr (Or.inr ⟨he.symm, q⟩)
  · exact Or.inr (Or.inl hg)

theorem vle_refl (a : Version) : vle a a := by
  unfold vle
  rw [Version.le_iff]
  exact Or.inr ⟨rfl, Or.inr ⟨rfl, Or.inr ⟨rfl, pre_le_refl a.preRelease⟩⟩⟩

theorem vle_total (a b : Version) : vle a b ∨ vle b a := by
  unfold vle
  rw [Version.le_iff, Version.le_iff]
  exact lex_total (lex_total (lex_total (pre_le_total a.preRelease b.preRelease)))

theorem vle_trans {a b c : Version} (h1 : vle a b) (h2 : vle b c) : vle a c := by
  unfold vle at h1 h2 ⊢
  rw [Version.le_iff] at h1 h2 ⊢
  exact lex_step h1 h2 (fun p q =>
    lex_step p q (fun p' q' => lex_step p' q' (fun hp hq => pre_le_trans hp hq)))

instance : IsTotal Version vle := ⟨vle_total⟩

instance : IsTrans Version vle := ⟨fun _ _ _ => vle_trans⟩

/-- Strict version order: `a < b` when `a ≤ b` and not `b ≤ a`. -/
def vlt (a b : Version) : Prop := vle a b ∧ ¬ vle b a

theorem vlt_of_major_lt {a b : Version} (h : a.major < b.major) : vlt a b := by
  constructor
  · unfold vle
    rw [Version.le_iff]
    exact Or.inl h
  · intro hb
    unfold vle at hb
    rw [Version.le_iff] at hb
    rcases hb with h2 | ⟨e, _⟩ <;> omega

theorem vlt_of_minor_lt {a b : Version} (h1 : a.major = b.major) (h : a.minor < b.minor) :
    vlt a b := by
  constructor
  · unfold vle
    rw [Version.le_iff]
    exact Or.inr ⟨h1, Or.inl h⟩
  · intro hb
    unfold vle at hb
    rw [Version.le_iff] at hb
    rcases hb with h2 | ⟨e, h2 | ⟨e2, _⟩⟩ <;> omega

theorem vlt_of_patch_lt {a b : Version} (h1 : a.major = b.major) (h2 : a.minor = b.minor)
    (h : a.patch < b.patch) : vlt a b := by
  constructor
  · unfold vle
    rw [Version.le_iff]
    exact Or.inr ⟨h1, Or.inr ⟨h2, Or.inl h⟩⟩
  · intro hb
    unfold vle at hb
    rw [Version.le_iff] at hb
    rcases hb with h3 | ⟨e, h3 | ⟨e2, h3 | ⟨e3, _⟩⟩⟩ <;> omega

/-! ### C2, C3, C9 — the next-version resolver -/

/-- C2: for every version `v`, the resolver with intent `Major` returns
`(major+1).0.0`, with `Minor` returns `major.(minor+1).0`, and with `Patch`
returns `major.minor.(patch+1)`, each with the pre-release ordinal cleared;
in particular resolving `2.3.1` with intent `Minor` returns `2.4.0`. -/
theorem next_version_final_bumps (v : Version) :
    determine_next_version v ReleaseType.MAJOR =
      { major := v.major + 1, minor := 0, patch := 0, preRelease := none } ∧
    determine_next_version v ReleaseType.MINOR =
      { major := v.major, minor := v.minor + 1, patch := 0, preRelease := none } ∧
    determine_next_version v ReleaseType.PATCH =
      { major := v.major, minor := v.minor, patch := v.patch + 1, preRelease := none } ∧
    determine_next_version { major := 2, minor := 3, patch := 1, preRelease := none }
        ReleaseType.MINOR = { major := 2, minor := 4, patch := 0, preRelease := none } :=
  ⟨rfl, rfl, rfl, rfl⟩

theorem next_version_final_bumps_witness :
    determine_next_version { major := 1, minor := 2, patch := 3, preRelease := some 4 }
        ReleaseType.MAJOR = { major := 2, minor := 0, patch := 0, preRelease := none } :=
  (next_version_final_bumps { major := 1, minor := 2, patch := 3, preRelease := some 4 }).1

/-- C3: for every version `v`, the resolver with intent `PreRelease` (`BETA`)
leaves `major.minor.patch` unchanged and only increments the pre-release
ordinal (starting from none as ordinal `0 + 1 = 1`); applying it twice yields
ordinals `n` and then `n + 1`. -/
theorem next_version_beta_increments (v : Version) :
    (determine_next_version v ReleaseType.BETA).major = v.major ∧
    (determine_next_version v ReleaseType.BETA).minor = v.minor ∧
    (determine_next_version v ReleaseType.BETA).patch = v.patch ∧
    (determine_next_version v ReleaseType.BETA).preRelease =
      some (v.preRelease.getD 0 + 1) ∧
    (determine_next_version (determine_next_version v ReleaseType.BETA)
        ReleaseType.BETA).preRelease = some (v.preRelease.getD 0 + 1 + 1) :=
  ⟨rfl, rfl, rfl, rfl, rfl⟩

theorem next_version_beta_increments_witness :
    (determine_next_version { major := 1, minor := 0, patch := 0, preRelease := none }
        ReleaseType.BETA).preRelease = some 1 :=
  (next_version_beta_increments
    { major := 1, minor := 0, patch := 0, preRelease := none }).2.2.2.1

/-- C9: for every version `v`, the resolver's results are strictly ordered,
`resolve(v, Major) > resolve(v, Minor) > resolve(v, Patch) > v` under the
version total order, and each of the three final results carries no
pre-release ordinal. -/
theorem next_version_strictly_ordered (v : Version) :
    vlt (determine_next_version v ReleaseType.MINOR)
      (determine_next_version v ReleaseType.MAJOR) ∧
    vlt (determine_next_version v ReleaseType.PATCH)
      (determine_next_version v ReleaseType.MINOR) ∧
    vlt v (determine_next_version v ReleaseType.PATCH) ∧
    (determine_next_version v ReleaseType.MAJOR).preRelease = none ∧
    (determine_next_version v ReleaseType.MINOR).preRelease = none ∧
    (determine_next_version v ReleaseType.PATCH).preRelease = none := by
  refine ⟨?_, ?_, ?_, rfl, rfl, rfl⟩
  · exact vlt_of_major_lt (by simp only [determine_next_version]; omega)
  · exact vlt_of_minor_lt (by simp only [determine_next_version])
      (by simp only [determine_next_version]; omega)
  · exact vlt_of_patch_lt (by simp only [determine_next_version])
      (by simp only [determine_next_version])
      (by simp only [determine_next_version]; omega)

theorem next_version_strictly_ordered_witness :
    vlt { major := 1, minor := 2, patch := 3, preRelease := some 4 }
      (determine_next_version { major := 1, minor := 2, patch := 3, preRelease := some 4 }
        ReleaseType.PATCH) :=
  (next_version_strictly_ordered
    { major := 1, minor := 2, patch := 3, preRelease := some 4 }).2.2.1

/-! ### C10 — tag filtering and the last released version -/

theorem filterMap_filter_isSome {α β : Type} (f : α → Option β) (l : List α) :
    (l.filter (fun a => (f a).isSome)).filterMap f = l.filterMap f := by
  induction l with
  | nil => rfl
  | cons a t ih =>
    cases h : f a <;> simp [List.filter_cons, h, ih]

theorem mem_of_getLast?_eq {α : Type} {l : List α} {m : α} (h : l.getLast? = some m) :
    m ∈ l := by
  induction l with
  | nil => simp at h
  | cons a t ih =>
    cases t with
    | nil =>
      simp only [List.getLast?_singleton, Option.some.injEq] at h
      simp [h]
    | cons b t' =>
      rw [List.getLast?_cons_cons] at h
      exact List.mem_cons_of_mem a (ih h)

theorem exists_getLast?_of_mem {α : Type} {l : List α} {x : α} (h : x ∈ l) :
    ∃ m, l.getLast? = some m := by
  cases l with
  | nil => simp at h
  | cons a t =>
    exact ⟨(a :: t).getLast (by simp), List.getLast?_eq_getLast_of_ne_nil (by simp)⟩

theorem sorted_le_getLast {l : List Version} (hs : List.Sorted vle l) {x m : Version}
    (hx : x ∈ l) (hm : l.getLast? = some m) : vle x m := by
  induction l with
  | nil => simp at hx
  | cons a t ih =>
    rcases List.mem_cons.mp hx with rfl | hxt
    · cases t with
      | nil =>
        simp only [List.getLast?_singleton, Option.some.injEq] at hm
        exact hm ▸ vle_refl x
      | cons b t' =>
        rw [List.getLast?_cons_cons] at hm
        exact (List.sorted_cons.mp hs).1 m (mem_of_getLast?_eq hm)
    · cases t with
      | nil => simp at hxt
      | cons b t' =>
        rw [List.getLast?_cons_cons] at hm
        exact ih (List.sorted_cons.mp hs).2 hxt hm

/-- C10: the last-released-version computation silently drops every tag line
whose text after the leading character does not parse as a valid version
(dropping them does not change `get_versions` at all), and whenever some line
does carry a valid version it succeeds and returns a valid parsed version that
is maximal under the version order — so a malformed `v*` tag never causes a
failure and never becomes the baseline. -/
theorem tag_filtering_and_max (tags : List String) :
    get_versions tags = get_versions (tags.filter (fun t => (tagVersion t).isSome)) ∧
    (∀ t ∈ tags, ∀ v, tagVersion t = some v →
      ∃ m, get_last_released_version tags = Except.ok m ∧ vle v m ∧
        m ∈ tags.filterMap tagVersion) := by
  constructor
  · unfold get_versions
    rw [filterMap_filter_isSome]
  · intro t ht v hv
    have hvmem : v ∈ tags.filterMap tagVersion := List.mem_filterMap.mpr ⟨t, ht, hv⟩
    have hvmem' : v ∈ get_versions tags := by
      unfold get_versions
      exact (List.mem_insertionSort vle).mpr hvmem
    obtain ⟨m, hm⟩ := exists_getLast?_of_mem hvmem'
    refine ⟨m, ?_, ?_, ?_⟩
    · unfold get_last_released_version
      rw [hm]
    · exact sorted_le_getLast (List.sorted_insertionSort vle _) hvmem' hm
    · have hmm := mem_of_getLast?_eq hm
      unfold get_versions at hmm
      exact (List.mem_insertionSort vle).mp hmm

theorem tag_filtering_and_max_witness :
    ∃ m, get_last_released_version [("v1.0.0"), ("vgarbage"), ("v2.0.0"), ("")] =
        Except.ok m ∧
      vle { major := 1, minor := 0, patch := 0, preRelease := none } m ∧
      m ∈ ([("v1.0.0"), ("vgarbage"), ("v2.0.0"), ("")].filterMap tagVersion) :=
  (tag_filtering_and_max [("v1.0.0"), ("vgarbage"), ("v2.0.0"), ("")]).2 ("v1.0.0")
    (by decide) { major := 1, minor := 0, patch := 0, preRelease := none } (by decide)

/-! ### Helper facts about the orchestrator's traces -/

theorem strData_append (a b : String) : (a ++ b).data = a.data ++ b.data := by
  cases a
  cases b
  rfl

theorem releaseBranchNameOf_ne_master (v : Version) : releaseBranchNameOf v ≠ MASTER := by
  intro h
  have h2 := congrArg String.data h
  unfold releaseBranchNameOf MASTER at h2
  rw [strData_append] at h2
  have h3 : ("release/" : String).data = ['r', 'e', 'l', 'e', 'a', 's', 'e', '/'] := rfl
  have h4 : ("master" : String).data = ['m', 'a', 's', 't', 'e', 'r'] := rfl
  rw [h3, h4] at h2
  simp at h2

theorem tagNameOf_ne_master (v : Version) : tagNameOf v ≠ MASTER := by
  intro h
  have h2 := congrArg String.data h
  unfold tagNameOf MASTER at h2
  rw [strData_append] at h2
  have h3 : ("v" : String).data = ['v'] := rfl
  have h4 : ("master" : String).data = ['m', 'a', 's', 't', 'e', 'r'] := rfl
  rw [h3, h4] at h2
  simp at h2

theorem is_dev_not_release {b : Branch} (h : b.is_dev = true) : b.is_release = false := by
  cases b with
  | mk n =>
    have hn : n = ("dev") := by simpa [Branch.is_dev] using h
    subst hn
    decide

theorem is_release_not_dev {b : Branch} (h : b.is_release = true) : b.is_dev = false := by
  cases b with
  | mk n =>
    by_cases hn : n = ("dev")
    · subst hn
      exact absurd h (by decide)
    · simpa [Branch.is_dev] using hn

theorem main'_dirty (i : Inputs) (h : i.workareaClean = false) :
    main' i = (Except.error RunError.exitFailure, []) := by
  unfold main'
  simp [h]

theorem main'_unsupported (i : Inputs) (hc : i.workareaClean = true)
    (hd : Branch.is_dev { name := i.currentBranch } = false)
    (hr : Branch.is_release { name := i.currentBranch } = false) :
    main' i =
      (Except.error (RunError.unboundLocal ("last_released_version")), [Event.FetchTags]) := by
  unfold main' devBlock relBlock commonTail prependEvents
  simp [hc, hd, hr]

theorem main'_release (i : Inputs) (hc : i.workareaClean = true)
    (hr : Branch.is_release { name := i.currentBranch } = true) :
    main' i = (Except.error (RunError.unboundLocal ("release_type")), [Event.FetchTags]) := by
  have hd := is_release_not_dev hr
  unfold main' devBlock relBlock prependEvents
  simp [hc, hd, hr]

theorem main'_dev_fail (i : Inputs) (e : RunError) (hc : i.workareaClean = true)
    (hd : Branch.is_dev { name := i.currentBranch } = true)
    (hlrv : get_last_released_version i.tags = Except.error e) :
    main' i = (Except.error e, [Event.FetchTags]) := by
  unfold main' devBlock prependEvents
  simp [hc, hd, hlrv]

theorem main'_dev_run (i : Inputs) (lrv : Version) (hc : i.workareaClean = true)
    (hd : Branch.is_dev { name := i.currentBranch } = true)
    (hlrv : get_last_released_version i.tags = Except.ok lrv) :
    main' i = prependEvents [Event.FetchTags]
      (commonTail i { name := i.currentBranch } (some lrv) (some i.releaseTypeChoice)
        (some (determine_next_version lrv i.releaseTypeChoice))) := by
  have hr := is_dev_not_release hd
  unfold main' devBlock relBlock
  simp [hc, hd, hr, hlrv]

theorem commonTail_declined (i : Inputs) (b : Branch) (lrv : Version) (rt : ReleaseType)
    (nv : Version) (h : i.confirmAnswer ≠ ("y")) :
    commonTail i b (some lrv) (some rt) (some nv) =
      (Except.error RunError.exitFailure, [Event.AskConfirm]) := by
  unfold commonTail prependEvents
  simp [h]

theorem commonTail_pushDeclined (i : Inputs) (b : Branch) (lrv : Version) (rt : ReleaseType)
    (nv : Version) (h1 : i.confirmAnswer = ("y")) (h2 : i.pushAnswer ≠ ("y")) :
    commonTail i b (some lrv) (some rt) (some nv) =
      (Except.error RunError.exitFailure, Event.AskConfirm ::
        ((if b.name ≠ releaseBranchNameOf nv then [Event.Checkout (releaseBranchNameOf nv)]
          else []) ++
         [Event.WriteManifest (versionString nv), Event.AddAll,
          Event.Commit ("Update version to {next_version}")] ++
         (if rt ≠ ReleaseType.BETA then
            [Event.Checkout MASTER, Event.Pull,
             Event.Merge (releaseBranchNameOf nv) (("Release v") ++ versionString nv)]
          else []) ++
         [Event.CreateTag (tagNameOf nv), Event.AskPush])) := by
  unfold commonTail prependEvents
  simp [h1, h2, List.append_assoc]

theorem commonTail_success (i : Inputs) (b : Branch) (lrv : Version) (rt : ReleaseType)
    (nv : Version) (h1 : i.confirmAnswer = ("y")) (h2 : i.pushAnswer = ("y")) :
    commonTail i b (some lrv) (some rt) (some nv) =
      (Except.ok (), Event.AskConfirm ::
        ((if b.name ≠ releaseBranchNameOf nv then [Event.Checkout (releaseBranchNameOf nv)]
          else []) ++
         [Event.WriteManifest (versionString nv), Event.AddAll,
          Event.Commit ("Update version to {next_version}")] ++
         (if rt ≠ ReleaseType.BETA then
            [Event.Checkout MASTER, Event.Pull,
             Event.Merge (releaseBranchNameOf nv) (("Release v") ++ versionString nv)]
          else []) ++
         [Event.CreateTag (tagNameOf nv), Event.AskPush, Event.Push (releaseBranchNameOf nv),
          Event.Push (tagNameOf nv), Event.Checkout b.name])) := by
  unfold commonTail prependEvents branch_eq_str
  simp [h1, h2, List.append_assoc]

/-- The events a development-branch run emits between the confirmation gate
and the tag creation: conditional release-branch checkout, manifest overwrite,
add, commit, and the conditional merge-to-master block. -/
def preTrace (i : Inputs) (nv : Version) : List Event :=
  (if i.currentBranch ≠ releaseBranchNameOf nv then [Event.Checkout (releaseBranchNameOf nv)]
   else []) ++
  [Event.WriteManifest (versionString nv), Event.AddAll,
   Event.Commit ("Update version to {next_version}")] ++
  (if i.releaseTypeChoice ≠ ReleaseType.BETA then
     [Event.Checkout MASTER, Event.Pull,
      Event.Merge (releaseBranchNameOf nv) (("Release v") ++ versionString nv)]
   else [])

/-- Every run's event trace has one of five shapes: stopped before fetching
(dirty workarea), stopped right after the fetch (crash or index error),
stopped at the declined confirmation gate, stopped at the declined push gate,
or completed. -/
theorem main'_trace_shape (i : Inputs) :
    (main' i).2 = [] ∨
    (main' i).2 = [Event.FetchTags] ∨
    (main' i).2 = [Event.FetchTags, Event.AskConfirm] ∨
    (∃ nv,
      ((main' i).2 = [Event.FetchTags, Event.AskConfirm] ++ preTrace i nv ++
          [Event.CreateTag (tagNameOf nv), Event.AskPush] ∧ i.pushAnswer ≠ ("y")) ∨
      ((main' i).2 = [Event.FetchTags, Event.AskConfirm] ++ preTrace i nv ++
          [Event.CreateTag (tagNameOf nv), Event.AskPush, Event.Push (releaseBranchNameOf nv),
           Event.Push (tagNameOf nv), Event.Checkout i.currentBranch] ∧
        i.pushAnswer = ("y"))) := by
  by_cases hc : i.workareaClean = true
  · by_cases hd : Branch.is_dev { name := i.currentBranch } = true
    · cases hglrv : get_last_released_version i.tags with
      | error e =>
        rw [main'_dev_fail i e hc hd hglrv]
        exact Or.inr (Or.inl rfl)
      | ok lrv =>
        rw [main'_dev_run i lrv hc hd hglrv]
        by_cases hconf : i.confirmAnswer = ("y")
        · by_cases hpush : i.pushAnswer = ("y")
          · rw [commonTail_success i { name := i.currentBranch } lrv i.releaseTypeChoice
              (determine_next_version lrv i.releaseTypeChoice) hconf hpush]
            refine Or.inr (Or.inr (Or.inr
              ⟨determine_next_version lrv i.releaseTypeChoice, Or.inr ⟨?_, hpush⟩⟩))
            simp [prependEvents, preTrace, List.append_assoc]
          · rw [commonTail_pushDeclined i { name := i.currentBranch } lrv i.releaseTypeChoice
              (determine_next_version lrv i.releaseTypeChoice) hconf hpush]
            refine Or.inr (Or.inr (Or.inr
              ⟨determine_next_version lrv i.releaseTypeChoice, Or.inl ⟨?_, hpush⟩⟩))
            simp [prependEvents, preTrace, List.append_assoc]
        · rw [commonTail_declined i { name := i.currentBranch } lrv i.releaseTypeChoice
            (determine_next_version lrv i.releaseTypeChoice) hconf]
          exact Or.inr (Or.inr (Or.inl rfl))
    · by_cases hr : Branch.is_release { name := i.currentBranch } = true
      · rw [main'_release i hc hr]
        exact Or.inr (Or.inl rfl)
      · rw [main'_unsupported i hc (by simpa using hd) (by simpa using hr)]
        exact Or.inr (Or.inl rfl)
  · rw [main'_dirty i (by simpa using hc)]
    exact Or.inl rfl

theorem trace_count_push_master (i : Inputs) :
    ((main' i).2.count (Event.Push MASTER)) = 0 := by
  rcases main'_trace_shape i with h | h | h | ⟨nv, ⟨h, _⟩ | ⟨h, _⟩⟩
  · rw [h]; rfl
  · rw [h]; rfl
  · rw [h]; rfl
  · rw [h]
    have h1 := Ne.symm (releaseBranchNameOf_ne_master nv)
    have h2 := Ne.symm (tagNameOf_ne_master nv)
    unfold preTrace
    split_ifs <;> simp [List.count_append, List.count_cons, h1, h2]
  · rw [h]
    have h1 := Ne.symm (releaseBranchNameOf_ne_master nv)
    have h2 := Ne.symm (tagNameOf_ne_master nv)
    unfold preTrace
    split_ifs <;> simp [List.count_append, List.count_cons, h1, h2]

/-- Recognizer for merge events. -/
def isMergeEvent : Event → Bool
  | Event.Merge _ _ => true
  | _ => false

/-- Recognizer for commit events. -/
def isCommitEvent : Event → Bool
  | Event.Commit _ => true
  | _ => false

/-! ### C1, C4, C5, C6, C7, C8 — the orchestrator -/

/-- C1: a run whose release intent is `PreRelease` (`BETA`) never merges to
trunk and never pushes the trunk branch; and once it reaches the push gate
and the push confirmation is affirmed, it pushes the release branch and the
new tag (which it also created). -/
theorem beta_run_never_touches_trunk (i : Inputs)
    (hbeta : i.releaseTypeChoice = ReleaseType.BETA) :
    ((main' i).2.countP isMergeEvent) = 0 ∧
    ((main' i).2.count (Event.Push MASTER)) = 0 ∧
    (Event.AskPush ∈ (main' i).2 → i.pushAnswer = ("y") →
      ∃ v, Event.Push (releaseBranchNameOf v) ∈ (main' i).2 ∧
        Event.Push (tagNameOf v) ∈ (main' i).2 ∧
        Event.CreateTag (tagNameOf v) ∈ (main' i).2) := by
  refine ⟨?_, trace_count_push_master i, ?_⟩
  · rcases main'_trace_shape i with h | h | h | ⟨nv, ⟨h, _⟩ | ⟨h, _⟩⟩
    · rw [h]; rfl
    · rw [h]; rfl
    · rw [h]; rfl
    · rw [h]
      unfold preTrace
      rw [hbeta]
      split_ifs <;> simp_all [List.countP_append, List.countP_cons, isMergeEvent]
    · rw [h]
      unfold preTrace
      rw [hbeta]
      split_ifs <;> simp_all [List.countP_append, List.countP_cons, isMergeEvent]
  · intro hin hpush
    rcases main'_trace_shape i with h | h | h | ⟨nv, ⟨h, hne⟩ | ⟨h, _⟩⟩
    · rw [h] at hin; simp at hin
    · rw [h] at hin; simp at hin
    · rw [h] at hin; simp at hin
    · exact absurd hpush hne
    · refine ⟨nv, ?_, ?_, ?_⟩ <;> rw [h] <;> simp

/-- A pre-release run on the development branch, fully confirmed. -/
def betaRun : Inputs :=
  { currentBranch := ("dev"), workareaClean := true, tags := [("v1.0.0")],
    releaseTypeChoice := ReleaseType.BETA,
    manifestVersion := { major := 9, minor := 9, patch := 9, preRelease := none },
    confirmAnswer := ("y"), pushAnswer := ("y") }

theorem beta_run_never_touches_trunk_witness :
    ((main' betaRun).2.countP isMergeEvent) = 0 ∧
    ((main' betaRun).2.count (Event.Push MASTER)) = 0 ∧
    (Event.AskPush ∈ (main' betaRun).2 → betaRun.pushAnswer = ("y") →
      ∃ v, Event.Push (releaseBranchNameOf v) ∈ (main' betaRun).2 ∧
        Event.Push (tagNameOf v) ∈ (main' betaRun).2 ∧
        Event.CreateTag (tagNameOf v) ∈ (main' betaRun).2) :=
  beta_run_never_touches_trunk betaRun rfl

/-- C4 (amended): a run that reaches the push-confirmation gate and whose
operator affirms it checks out the branch the run started on. -/
theorem push_confirmed_restores_branch (i : Inputs)
    (h1 : Event.AskPush ∈ (main' i).2) (h2 : i.pushAnswer = ("y")) :
    Event.Checkout i.currentBranch ∈ (main' i).2 := by
  rcases main'_trace_shape i with h | h | h | ⟨nv, ⟨h, hne⟩ | ⟨h, _⟩⟩
  · rw [h] at h1; simp at h1
  · rw [h] at h1; simp at h1
  · rw [h] at h1; simp at h1
  · exact absurd h2 hne
  · rw [h]; simp

/-- A final-release run on the development branch where the operator confirms
the version but declines the push. -/
def pushDeclinedRun : Inputs :=
  { currentBranch := ("dev"), workareaClean := true, tags := [("v1.0.0")],
    releaseTypeChoice := ReleaseType.MINOR,
    manifestVersion := { major := 9, minor := 9, patch := 9, preRelease := none },
    confirmAnswer := ("y"), pushAnswer := ("n") }

/-- C4 counterexample: a run that reaches the push gate and declines exits
with `exit(1)` without ever checking out the starting branch (`dev`) again —
the restore step is skipped. -/
theorem push_declined_skips_restore :
    Event.AskPush ∈ (main' pushDeclinedRun).2 ∧
    ((main' pushDeclinedRun).2.count (Event.Checkout ("dev"))) = 0 ∧
    (main' pushDeclinedRun).1 = Except.error RunError.exitFailure := by
  decide

/-- The same run as `pushDeclinedRun` with the push confirmed. -/
def pushConfirmedRun : Inputs :=
  { currentBranch := ("dev"), workareaClean := true, tags := [("v1.0.0")],
    releaseTypeChoice := ReleaseType.MINOR,
    manifestVersion := { major := 9, minor := 9, patch := 9, preRelease := none },
    confirmAnswer := ("y"), pushAnswer := ("y") }

theorem push_confirmed_restores_branch_witness :
    Event.Checkout ("dev") ∈ (main' pushConfirmedRun).2 :=
  push_confirmed_restores_branch pushConfirmedRun (by decide) (by decide)

/-- A fully-confirmed final (minor) release run started on the development
branch with last released version `1.0.0`; the resolved next version is
`1.1.0`. -/
def finalRun : Inputs :=
  { currentBranch := ("dev"), workareaClean := true, tags := [("v1.0.0")],
    releaseTypeChoice := ReleaseType.MINOR,
    manifestVersion := { major := 9, minor := 9, patch := 9, preRelease := none },
    confirmAnswer := ("y"), pushAnswer := ("y") }

/-- C5: the trunk branch is never pushed on any run — the guard
`Git.get_current_branch() == MASTER` compares a `Branch` instance to a string
and is always false — even on a completed final run that did merge the
release branch into master (and did push the release branch and the tag). -/
theorem trunk_push_dead_code :
    (∀ i : Inputs, ((main' i).2.count (Event.Push MASTER)) = 0) ∧
    (main' finalRun).1 = Except.ok () ∧
    Event.Merge ("release/1.1.0") ("Release v1.1.0") ∈ (main' finalRun).2 ∧
    Event.Checkout MASTER ∈ (main' finalRun).2 ∧
    Event.Push ("release/1.1.0") ∈ (main' finalRun).2 ∧
    Event.Push ("v1.1.0") ∈ (main' finalRun).2 :=
  ⟨trace_count_push_master, by decide, by decide, by decide, by decide, by decide⟩

/-- Does `pat` occur as a contiguous subsequence of `s`? -/
def containsSeq (pat : List Char) : List Char → Bool
  | [] => decide (pat = [])
  | c :: rest => decide ((c :: rest).take pat.length = pat) || containsSeq pat rest

/-- C6: on a completed run that resolved next version `1.1.0` (the created tag
is `v1.1.0`), the single commit's message is the literal, un-interpolated
text `Update version to {next_version}` — the f-string prefix is missing in
the source — so the message does not contain the canonical string `1.1.0` of
the new version. -/
theorem commit_message_not_interpolated :
    (main' finalRun).1 = Except.ok () ∧
    Event.Commit ("Update version to {next_version}") ∈ (main' finalRun).2 ∧
    ((main' finalRun).2.countP isCommitEvent) = 1 ∧
    Event.CreateTag ("v1.1.0") ∈ (main' finalRun).2 ∧
    versionString (determine_next_version
      { major := 1, minor := 0, patch := 0, preRelease := none } ReleaseType.MINOR) =
      ("1.1.0") ∧
    containsSeq ("1.1.0").data ("Update version to {next_version}").data = false := by
  decide

/-- C7: a clean-workarea run started on a branch that is neither the
development branch nor a release branch does fail before any mutation — the
only event is the tag fetch — but it fails with Python's `UnboundLocalError`
on `last_released_version` (raised while formatting the confirmation prompt),
not with a detected `UnsupportedBranch` condition. -/
theorem unsupported_branch_crash (i : Inputs) (hc : i.workareaClean = true)
    (hd : Branch.is_dev { name := i.currentBranch } = false)
    (hr : Branch.is_release { name := i.currentBranch } = false) :
    (main' i).1 = Except.error (RunError.unboundLocal ("last_released_version")) ∧
    (main' i).2 = [Event.FetchTags] := by
  rw [main'_unsupported i hc hd hr]
  exact ⟨rfl, rfl⟩

/-- A run started on the unsupported branch `feature/x`. -/
def unsupportedRun : Inputs :=
  { currentBranch := ("feature/x"), workareaClean := true, tags := [("v1.0.0")],
    releaseTypeChoice := ReleaseType.MINOR,
    manifestVersion := { major := 9, minor := 9, patch := 9, preRelease := none },
    confirmAnswer := ("y"), pushAnswer := ("y") }

theorem unsupported_branch_crash_witness :
    (main' unsupportedRun).1 =
      Except.error (RunError.unboundLocal ("last_released_version")) ∧
    (main' unsupportedRun).2 = [Event.FetchTags] :=
  unsupported_branch_crash unsupportedRun (by decide) (by decide) (by decide)

/-- A run started on the in-flight release branch `release/1.0.0` whose
manifest records the sentinel `0.0.0`. -/
def inflightRun : Inputs :=
  { currentBranch := ("release/1.0.0"), workareaClean := true, tags := [("v0.9.0")],
    releaseTypeChoice := ReleaseType.BETA,
    manifestVersion := { major := 0, minor := 0, patch := 0, preRelease := none },
    confirmAnswer := ("y"), pushAnswer := ("y") }

/-- C8: on a release-branch run the sentinel fallback of lines 172-173 does
select the branch-embedded version `1.0.0`, and resolving it with intent
`PreRelease` would give `1.0.0b1` — but the run itself crashes with
`UnboundLocalError` on `release_type` (never assigned on this path, release.py
line 175) before any resolution, emitting no event beyond the tag fetch. -/
theorem inflight_release_crashes_before_resolution :
    (main' inflightRun).1 = Except.error (RunError.unboundLocal ("release_type")) ∧
    (main' inflightRun).2 = [Event.FetchTags] ∧
    parseVersionChars ((splitOnChar ('/') ("release/1.0.0").data).getD 1 []) =
      some { major := 1, minor := 0, patch := 0, preRelease := none } ∧
    determine_next_version { major := 1, minor := 0, patch := 0, preRelease := none }
        ReleaseType.BETA = { major := 1, minor := 0, patch := 0, preRelease := some 1 } ∧
    versionString { major := 1, minor := 0, patch := 0, preRelease := some 1 } =
      ("1.0.0b1") := by
  decide
